import Mathlib

/-!
Shallow embedding of the `owned-alloc` crate (src/lib.rs, src/owned.rs,
src/uninit.rs, src/raw_vec.rs, src/error.rs) for checking its
natural-language specification.

Machine model: a 64-bit platform, so `usize::MAX = 2^64 - 1`.  A Rust type
`T` is represented by its layout parameters `tySize = size_of::<T>()` and
`tyAlign = align_of::<T>()`.  Raw pointers are natural numbers (`0` is the
null pointer, `NonNull::dangling()` for `T` is the address `align_of::<T>()`).
Byte memory is a total function `Nat → Nat`.  Calls into the underlying
system allocator (`alloc::alloc::{alloc, alloc_zeroed, dealloc, realloc}`)
are recorded as explicit events so that "never touches the system
allocator" claims become statements about the emitted event list.  The
results of underlying allocation calls are supplied by oracle parameters
(`sysPtr`, `sysAlloc`, `sysRealloc`): `0` models an allocation failure
(null return), any other value a successful allocation at that address.
-/

namespace OwnedAllocCrate

/-- The maximum value of `usize` on the modelled 64-bit platform. -/
def USIZE_MAX : Nat := 2 ^ 64 - 1

/-- Rust's `usize::is_power_of_two`, used by `Layout::from_size_align`. -/
def isPow2 (n : Nat) : Bool := n ≠ 0 && (n &&& (n - 1)) == 0

/-- Embedding of `core::alloc::Layout`: a size and an alignment. -/
structure Layout where
  size : Nat
  align : Nat
deriving DecidableEq

/-- Embedding of `Layout::from_size_align`: the alignment must be a power of
two and the size, rounded up to the alignment, must not overflow `usize`. -/
def Layout.from_size_align (size align : Nat) : Option Layout :=
  if isPow2 align ∧ size ≤ USIZE_MAX - (align - 1) then some ⟨size, align⟩ else none

/-- Embedding of `error::AllocError` (src/error.rs): carries the failing layout. -/
structure AllocError where
  layout : Layout
deriving DecidableEq

/-- Embedding of `error::LayoutError` (src/error.rs): a marker value. -/
inductive LayoutError where
  | mk
deriving DecidableEq

/-- Embedding of `error::RawVecError` (src/error.rs). -/
inductive RawVecError where
  | alloc (err : AllocError)
  | layout (err : LayoutError)
deriving DecidableEq

/-- A call into the underlying system allocator (`alloc::alloc::*`). -/
inductive SysCall where
  | alloc (l : Layout)
  | allocZeroed (l : Layout)
  | dealloc (p : Nat) (l : Layout)
  | realloc (p : Nat) (l : Layout) (newSize : Nat)
deriving DecidableEq

/-- Embedding of `NonNull::dangling()` for a type of alignment `tyAlign`:
the alignment itself used as a non-null, non-dereferenceable address. -/
def dangling (tyAlign : Nat) : Nat := tyAlign

/-- Embedding of `usize::checked_mul`. -/
def checkedMul (a b : Nat) : Option Nat :=
  if a * b ≤ USIZE_MAX then some (a * b) else none

/-- Embedding of `RawVec::<T>::make_layout` (src/raw_vec.rs lines 230-236):
`size_of::<T>().checked_mul(cap)` then `Layout::from_size_align` with the
type's alignment. -/
def makeLayout (tySize tyAlign cap : Nat) : Except LayoutError Layout :=
  match checkedMul tySize cap with
  | none => .error .mk
  | some total =>
    match Layout.from_size_align total tyAlign with
    | some l => .ok l
    | none => .error .mk

/-- Embedding of `RawVec<T>` (src/raw_vec.rs): a raw pointer and a capacity. -/
structure RawVec where
  ptr : Nat
  cap : Nat
deriving DecidableEq

/-- Embedding of `RawVec::new` (src/raw_vec.rs lines 19-25): dangling
pointer, capacity `0`, no allocation. -/
def RawVec.new (tyAlign : Nat) : RawVec := ⟨dangling tyAlign, 0⟩

/-- Embedding of `RawVec::cap` (src/raw_vec.rs lines 117-119). -/
def RawVec.cap' (v : RawVec) : Nat := v.cap

/-- Embedding of `RawVec::try_with_capacity` (src/raw_vec.rs lines 44-59).
`sysAlloc` is the oracle for `alloc::alloc::alloc` (`0` = null return).
Returns the result together with the system-allocator calls made. -/
def tryWithCapacity (tySize tyAlign cap : Nat) (sysAlloc : Layout → Nat) :
    Except RawVecError RawVec × List SysCall :=
  match makeLayout tySize tyAlign cap with
  | .error e => (.error (.layout e), [])
  | .ok layout =>
    if layout.size = 0 then (.ok ⟨dangling tyAlign, cap⟩, [])
    else if sysAlloc layout = 0 then (.error (.alloc ⟨layout⟩), [.alloc layout])
    else (.ok ⟨sysAlloc layout, cap⟩, [.alloc layout])

/-- Embedding of `RawVec::with_capacity` (src/raw_vec.rs lines 31-39):
`none` models aborting via `handle_alloc_error` or panicking on a layout
overflow. -/
def withCapacity (tySize tyAlign cap : Nat) (sysAlloc : Layout → Nat) :
    Option RawVec :=
  match (tryWithCapacity tySize tyAlign cap sysAlloc).1 with
  | .ok v => some v
  | .error _ => none

/-- Embedding of `RawVec::free` (src/raw_vec.rs lines 220-227): deallocates
when capacity and element size are both non-zero.  `none` models a panic of
the internal `make_layout(self.cap).unwrap()`. -/
def RawVec.free (tySize tyAlign : Nat) (v : RawVec) : Option (List SysCall) :=
  if v.cap ≠ 0 ∧ tySize ≠ 0 then
    match makeLayout tySize tyAlign v.cap with
    | .ok layout => some [.dealloc v.ptr layout]
    | .error _ => none
  else some []

/-- Embedding of `RawVec::try_resize` (src/raw_vec.rs lines 201-217).
`sysRealloc` is the oracle for `alloc::alloc::realloc` (`0` = null return);
the returned triple is (call result, resulting `RawVec` state, system
allocator calls made).  `none` models a panic of the internal
`make_layout(self.cap).unwrap()`. -/
def tryResize (tySize tyAlign : Nat) (v : RawVec) (newCap : Nat)
    (sysRealloc : Nat → Layout → Nat → Nat) :
    Option (Except RawVecError Unit × RawVec × List SysCall) :=
  match makeLayout tySize tyAlign newCap with
  | .error e => some (.error (.layout e), v, [])
  | .ok layout =>
    if layout.size = 0 then
      match RawVec.free tySize tyAlign v with
      | none => none
      | some calls => some (.ok (), ⟨dangling tyAlign, newCap⟩, calls)
    else
      match makeLayout tySize tyAlign v.cap with
      | .error _ => none
      | .ok old =>
        if sysRealloc v.ptr old layout.size = 0 then
          some (.error (.alloc ⟨layout⟩), v, [.realloc v.ptr old layout.size])
        else
          some (.ok (), ⟨sysRealloc v.ptr old layout.size, newCap⟩,
            [.realloc v.ptr old layout.size])

/-- Byte memory: a total map from addresses to byte values. -/
def Mem : Type := Nat → Nat

/-- Embedding of `core::ptr::write_bytes(addr, val, size)` on byte memory. -/
def writeBytes (m : Mem) (addr val size : Nat) : Mem :=
  fun i => if addr ≤ i ∧ i < addr + size then val else m i

/-- Embedding of `core::ptr::copy_nonoverlapping(src, dst, n)` on byte
memory: the `n` bytes at `src` are copied to `dst`. -/
def copyNonoverlapping (m : Mem) (src dst n : Nat) : Mem :=
  fun i => if dst ≤ i ∧ i < dst + n then m (src + (i - dst)) else m i

/-- Embedding of `<*mut u8>::align_offset` for a power-of-two alignment:
the distance from `p` to the next multiple of `align`. -/
def alignOffset (p align : Nat) : Nat :=
  if align = 0 then 0 else (align - p % align) % align

/-- Embedding of the crate's `Allocator` struct (src/lib.rs).  Its methods
below thread byte memory and record underlying `alloc::alloc::*` calls. -/
structure Allocator where
deriving DecidableEq

/-- Embedding of `GlobalAlloc::alloc` for `Allocator` (src/lib.rs lines
59-75): calls the underlying `alloc_zeroed` (oracle `sysPtr`, whose
effect of zeroing the fresh block is applied to memory), then, when the
returned address is misaligned, advances it by `align_offset` and re-zeroes
`size` bytes from the adjusted address.  Returns (pointer, memory, calls). -/
def Allocator.alloc (layout : Layout) (sysPtr : Nat) (m : Mem) :
    Nat × Mem × List SysCall :=
  if sysPtr = 0 then (0, m, [.allocZeroed layout])
  else
    let m1 := writeBytes m sysPtr 0 layout.size
    let off := alignOffset sysPtr layout.align
    if off = 0 then (sysPtr, m1, [.allocZeroed layout])
    else (sysPtr + off, writeBytes m1 (sysPtr + off) 0 layout.size, [.allocZeroed layout])

/-- Embedding of `GlobalAlloc::dealloc` for `Allocator` (src/lib.rs lines
77-83): zero-overwrites the `layout.size` bytes at `p`, then calls the
underlying `dealloc`.  Returns (memory at the moment of the underlying free
call, calls). -/
def Allocator.dealloc (p : Nat) (layout : Layout) (m : Mem) :
    Mem × List SysCall :=
  (writeBytes m p 0 layout.size, [.dealloc p layout])

/-- Embedding of `GlobalAlloc::alloc_zeroed` for `Allocator` (src/lib.rs
lines 85-95): `self.alloc` then, on success, a redundant zeroing pass. -/
def Allocator.allocZeroed (layout : Layout) (sysPtr : Nat) (m : Mem) :
    Nat × Mem × List SysCall :=
  match Allocator.alloc layout sysPtr m with
  | (p, m1, c) => if p = 0 then (p, m1, c) else (p, writeBytes m1 p 0 layout.size, c)

/-- Embedding of `GlobalAlloc::realloc` for `Allocator` (src/lib.rs lines
97-115): allocate a new block via `self.alloc`, copy
`min(layout.size, new_size)` bytes from the old block, then `self.dealloc`
the old block (which zero-overwrites it).  `sysPtr` is the oracle for the
fresh allocation. -/
def Allocator.realloc (p : Nat) (layout : Layout) (newSize : Nat)
    (sysPtr : Nat) (m : Mem) : Nat × Mem × List SysCall :=
  match Allocator.alloc ⟨newSize, layout.align⟩ sysPtr m with
  | (np, m1, c1) =>
    if np = 0 then (np, m1, c1)
    else
      let m2 := copyNonoverlapping m1 p np (min layout.size newSize)
      match Allocator.dealloc p layout m2 with
      | (m3, c2) => (np, m3, c1 ++ c2)

/-- Embedding of `Allocator::alloc_impl` (src/lib.rs lines 140-164): a
zero-size layout yields the placeholder address `layout.align` with no
underlying call; otherwise the `GlobalAlloc` path runs and a null return
becomes `Err(core::alloc::AllocError)` (modelled as `Except Unit`).  The
successful value is the (address, length) of the returned `NonNull<[u8]>`. -/
def Allocator.alloc_impl (layout : Layout) (zeroed : Bool) (sysPtr : Nat)
    (m : Mem) : Except Unit (Nat × Nat) × Mem × List SysCall :=
  if layout.size = 0 then (.ok (layout.align, 0), m, [])
  else
    match (if zeroed then Allocator.allocZeroed layout sysPtr m
           else Allocator.alloc layout sysPtr m) with
    | (p, m1, c) => if p = 0 then (.error (), m1, c) else (.ok (p, layout.size), m1, c)

/-- Embedding of `core::alloc::Allocator::deallocate` for `Allocator`
(src/lib.rs lines 122-126), exactly as written in the source: the
`GlobalAlloc::dealloc` path is entered when `layout.size() == 0` and
skipped otherwise. -/
def Allocator.deallocate (p : Nat) (layout : Layout) (m : Mem) :
    Mem × List SysCall :=
  if layout.size = 0 then Allocator.dealloc p layout m else (m, [])

/-- An observable event of the single-slot types: an underlying allocation
call, an underlying deallocation call, or a run of the value's destructor. -/
inductive HEvent where
  | allocCall
  | deallocCall
  | destructorRun
deriving DecidableEq

/-- Typed heap state for the single-slot types: the value (if any) stored at
each address, plus the trace of observable events so far. -/
structure HState (α : Type) where
  store : Nat → Option α
  events : List HEvent

/-- Embedding of `UninitAlloc<T>` (src/uninit.rs): a raw non-null pointer. -/
structure UninitAlloc where
  ptr : Nat
deriving DecidableEq

/-- Embedding of `OwnedAlloc<T>` (src/owned.rs): a raw non-null pointer. -/
structure OwnedAlloc where
  ptr : Nat
deriving DecidableEq

/-- Embedding of `UninitAlloc::try_new` (src/uninit.rs lines 31-44): a
zero-sized `T` yields the dangling placeholder with no allocation call;
otherwise `alloc::alloc::alloc` runs (oracle `sysPtr`, `0` = null). -/
def UninitAlloc.tryNew {α : Type} (tySize tyAlign : Nat) (sysPtr : Nat)
    (s : HState α) : Except AllocError UninitAlloc × HState α :=
  if tySize = 0 then (.ok ⟨dangling tyAlign⟩, s)
  else if sysPtr = 0 then
    (.error ⟨⟨tySize, tyAlign⟩⟩, { s with events := s.events ++ [.allocCall] })
  else (.ok ⟨sysPtr⟩, { s with events := s.events ++ [.allocCall] })

/-- Embedding of `UninitAlloc::init` (src/uninit.rs lines 47-53):
`into_raw` (a `mem::forget`, so no drop and no deallocation), a raw
`write` of the value, then `OwnedAlloc::from_raw` on the same pointer. -/
def UninitAlloc.init {α : Type} (u : UninitAlloc) (v : α) (s : HState α) :
    OwnedAlloc × HState α :=
  (⟨u.ptr⟩, { s with store := fun i => if i = u.ptr then some v else s.store i })

/-- Embedding of `OwnedAlloc::try_new` (src/owned.rs lines 29-31):
`UninitAlloc::try_new().map(|alloc| alloc.init(value))`. -/
def OwnedAlloc.tryNew {α : Type} (tySize tyAlign : Nat) (sysPtr : Nat)
    (v : α) (s : HState α) : Except AllocError (OwnedAlloc × HState α) :=
  match UninitAlloc.tryNew tySize tyAlign sysPtr s with
  | (.error e, _) => .error e
  | (.ok u, s1) => .ok (UninitAlloc.init u v s1)

/-- Embedding of `OwnedAlloc::move_inner` (src/owned.rs lines 34-39): a raw
`read` of the value, `UninitAlloc::from_raw` on the same pointer, and a
`mem::forget` of `self` (so no destructor and no deallocation happen, and
the state is untouched). -/
def OwnedAlloc.moveInner {α : Type} (o : OwnedAlloc) (s : HState α) :
    Option α × UninitAlloc × HState α :=
  (s.store o.ptr, ⟨o.ptr⟩, s)

/-- Embedding of `OwnedAlloc`'s `Deref` (src/owned.rs lines 104-114): reads
the live value behind the pointer. -/
def OwnedAlloc.deref {α : Type} (o : OwnedAlloc) (s : HState α) : Option α :=
  s.store o.ptr

/-- Embedding of `impl Drop for OwnedAlloc` (src/owned.rs lines 88-102),
exactly as written in the source: `drop_in_place` runs the value's
destructor, and the `layout.size() != 0` branch is empty because the
deallocation call in its body is commented out (src/owned.rs line 98). -/
def OwnedAlloc.dropEvents (tySize : Nat) : List HEvent :=
  HEvent.destructorRun :: (if tySize ≠ 0 then [] else [])

/-! Helper lemmas about the byte-memory primitives and the allocator. -/

lemma writeBytes_in_range (m : Mem) (a val sz i : Nat) (hi : i < sz) :
    writeBytes m a val sz (a + i) = val := by
  unfold writeBytes
  rw [if_pos ⟨Nat.le_add_right a i, Nat.add_lt_add_left hi a⟩]

lemma writeBytes_out (m : Mem) (a val sz i : Nat) (h : i < a ∨ a + sz ≤ i) :
    writeBytes m a val sz i = m i := by
  unfold writeBytes
  rw [if_neg]
  rintro ⟨h1, h2⟩
  rcases h with h | h
  · exact absurd h1 (Nat.not_le.mpr h)
  · exact absurd h2 (Nat.not_lt.mpr h)

lemma copyNonoverlapping_in_range (m : Mem) (src dst n i : Nat) (hi : i < n) :
    copyNonoverlapping m src dst n (dst + i) = m (src + i) := by
  unfold copyNonoverlapping
  rw [if_pos ⟨Nat.le_add_right dst i, Nat.add_lt_add_left hi dst⟩]
  congr 1
  omega

lemma alloc_fst_ge (layout : Layout) (sysPtr : Nat) (m : Mem)
    (hs : sysPtr ≠ 0) :
    sysPtr ≤ (Allocator.alloc layout sysPtr m).1 ∧
      (Allocator.alloc layout sysPtr m).1 ≠ 0 := by
  unfold Allocator.alloc
  rw [if_neg hs]
  by_cases hoff : alignOffset sysPtr layout.align = 0
  · rw [if_pos hoff]
    exact ⟨Nat.le_refl _, hs⟩
  · rw [if_neg hoff]
    exact ⟨Nat.le_add_right _ _, by omega⟩

lemma alloc_mem_below (layout : Layout) (sysPtr : Nat) (m : Mem) (j : Nat)
    (hj : j < sysPtr) :
    (Allocator.alloc layout sysPtr m).2.1 j = m j := by
  unfold Allocator.alloc
  by_cases hs : sysPtr = 0
  · rw [if_pos hs]
  · rw [if_neg hs]
    by_cases hoff : alignOffset sysPtr layout.align = 0
    · rw [if_pos hoff]
      exact writeBytes_out m sysPtr 0 layout.size j (Or.inl hj)
    · rw [if_neg hoff]
      show writeBytes (writeBytes m sysPtr 0 layout.size)
        (sysPtr + alignOffset sysPtr layout.align) 0 layout.size j = m j
      rw [writeBytes_out _ _ _ _ _
        (Or.inl (show j < sysPtr + alignOffset sysPtr layout.align by omega))]
      exact writeBytes_out m sysPtr 0 layout.size j (Or.inl hj)

lemma makeLayout_ok (tySize tyAlign cap : Nat) (hp : isPow2 tyAlign = true)
    (hb : tySize * cap ≤ USIZE_MAX - (tyAlign - 1)) :
    makeLayout tySize tyAlign cap = .ok ⟨tySize * cap, tyAlign⟩ := by
  have h1 : checkedMul tySize cap = some (tySize * cap) := by
    unfold checkedMul
    rw [if_pos (Nat.le_trans hb (Nat.sub_le _ _))]
  have h2 : Layout.from_size_align (tySize * cap) tyAlign =
      some ⟨tySize * cap, tyAlign⟩ := by
    unfold Layout.from_size_align
    rw [if_pos ⟨hp, hb⟩]
  simp only [makeLayout, h1, h2]

lemma from_size_align_inv (size align : Nat) (l : Layout)
    (h : Layout.from_size_align size align = some l) :
    isPow2 align = true ∧ size ≤ USIZE_MAX - (align - 1) := by
  unfold Layout.from_size_align at h
  by_cases hc : isPow2 align = true ∧ size ≤ USIZE_MAX - (align - 1)
  · exact hc
  · rw [if_neg hc] at h
    exact absurd h (by simp)

lemma tryWithCapacity_ok_inv (tySize tyAlign cap : Nat) (f : Layout → Nat)
    (v : RawVec) (calls : List SysCall)
    (h : tryWithCapacity tySize tyAlign cap f = (.ok v, calls)) :
    (∃ l, makeLayout tySize tyAlign cap = .ok l) ∧ v.cap = cap := by
  unfold tryWithCapacity at h
  split at h
  · simp only [Prod.mk.injEq] at h
    exact absurd h.1 (by simp)
  · rename_i layout heq
    refine ⟨⟨layout, heq⟩, ?_⟩
    split at h
    · simp only [Prod.mk.injEq, Except.ok.injEq] at h
      rw [← h.1]
    · split at h
      · simp only [Prod.mk.injEq] at h
        exact absurd h.1 (by simp)
      · simp only [Prod.mk.injEq, Except.ok.injEq] at h
        rw [← h.1]

lemma tryResize_cases (tySize tyAlign : Nat) (v : RawVec) (newCap : Nat)
    (g : Nat → Layout → Nat → Nat) (res : Except RawVecError Unit)
    (vNew : RawVec) (calls : List SysCall)
    (h : tryResize tySize tyAlign v newCap g = some (res, vNew, calls)) :
    ((∃ e, res = Except.error e) ∧ vNew = v) ∨
      (res = Except.ok () ∧ vNew.cap = newCap ∧
        ∃ l, makeLayout tySize tyAlign newCap = Except.ok l) := by
  unfold tryResize at h
  split at h
  · rename_i e heq
    simp only [Option.some.injEq, Prod.mk.injEq] at h
    exact Or.inl ⟨⟨.layout e, h.1.symm⟩, h.2.1.symm⟩
  · rename_i layout heq
    split at h
    · split at h
      · exact absurd h (by simp)
      · simp only [Option.some.injEq, Prod.mk.injEq] at h
        exact Or.inr ⟨h.1.symm, by rw [← h.2.1], ⟨layout, heq⟩⟩
    · split at h
      · exact absurd h (by simp)
      · split at h
        · simp only [Option.some.injEq, Prod.mk.injEq] at h
          exact Or.inl ⟨⟨.alloc ⟨layout⟩, h.1.symm⟩, h.2.1.symm⟩
        · simp only [Option.some.injEq, Prod.mk.injEq] at h
          exact Or.inr ⟨h.1.symm, by rw [← h.2.1], ⟨layout, heq⟩⟩

/-! Claim theorems. -/

/-- C1: on normal destruction of an `OwnedAlloc<T>` the live value's
destructor runs exactly once, but contrary to the claim the heap block is
never deallocated even when `size_of::<T>() != 0`: the deallocation call in
`impl Drop for OwnedAlloc` is commented out (src/owned.rs line 98), leaving
the `layout.size() != 0` branch empty.  Evaluated here at `T = u32`
(size 4): the drop trace is one destructor run and no deallocation call. -/
theorem ownedAlloc_drop_runs_destructor_but_never_deallocates :
    OwnedAlloc.dropEvents 4 = [HEvent.destructorRun] ∧
    HEvent.deallocCall ∉ OwnedAlloc.dropEvents 4 := by
  constructor
  · rfl
  · decide

/-- C2: the `deallocate` side of the custom `Allocator` (src/lib.rs lines
122-126) inverts the zero-size test: for a zero-size layout it does invoke
the underlying system `dealloc` (and for a non-zero-size layout it invokes
nothing), contradicting the claim that zero-size requests never reach the
system deallocation call.  Evaluated at `ptr = 1` with layouts
`(size 0, align 1)` and `(size 4, align 4)`. -/
theorem allocator_deallocate_zero_size_calls_system_dealloc :
    (Allocator.deallocate 1 ⟨0, 1⟩ (fun _ => 0)).2 = [SysCall.dealloc 1 ⟨0, 1⟩] ∧
    (Allocator.deallocate 1 ⟨4, 4⟩ (fun _ => 0)).2 = [] := by
  constructor <;> rfl

/-- C4: when `size_of::<T>() * cap` overflows `usize`,
`RawVec::<T>::try_with_capacity(cap)` returns `RawVecError::Layout(_)` and
performs no call to the underlying system allocator (empty call list). -/
theorem try_with_capacity_overflow_returns_layout_error
    (tySize tyAlign cap : Nat) (sysAlloc : Layout → Nat)
    (h : USIZE_MAX < tySize * cap) :
    tryWithCapacity tySize tyAlign cap sysAlloc =
      (.error (.layout .mk), []) := by
  have h1 : checkedMul tySize cap = none := by
    unfold checkedMul
    rw [if_neg (Nat.not_le.mpr h)]
  simp only [tryWithCapacity, makeLayout, h1]

/-- C4 witness: `2 * 2^63` overflows the 64-bit `usize`, and
`try_with_capacity(2^63)` at element size 2 returns the layout error with
no allocator call. -/
theorem try_with_capacity_overflow_returns_layout_error_witness :
    USIZE_MAX < 2 * 2 ^ 63 ∧
    tryWithCapacity 2 1 (2 ^ 63) (fun _ => 1) = (.error (.layout .mk), []) :=
  ⟨by decide,
   try_with_capacity_overflow_returns_layout_error 2 1 (2 ^ 63) (fun _ => 1)
     (by decide)⟩

/-- C8: `cap()` equals the capacity passed to the last capacity-modifying
operation: `new` initializes it to 0, a successful `with_capacity` or
`try_with_capacity` sets it to the requested capacity, and a successful
`try_resize` sets it to the new capacity. -/
theorem cap_is_the_one_passed (tySize tyAlign : Nat) :
    (RawVec.new tyAlign).cap' = 0 ∧
    (∀ cap sysAlloc v calls,
      tryWithCapacity tySize tyAlign cap sysAlloc = (.ok v, calls) →
      v.cap' = cap) ∧
    (∀ cap sysAlloc v,
      withCapacity tySize tyAlign cap sysAlloc = some v → v.cap' = cap) ∧
    (∀ v newCap sysRealloc vNew calls,
      tryResize tySize tyAlign v newCap sysRealloc =
        some (.ok (), vNew, calls) →
      vNew.cap' = newCap) := by
  refine ⟨rfl, ?_, ?_, ?_⟩
  · intro cap f v calls h
    exact (tryWithCapacity_ok_inv tySize tyAlign cap f v calls h).2
  · intro cap f v h
    unfold withCapacity at h
    rcases htw : tryWithCapacity tySize tyAlign cap f with ⟨res, calls⟩
    rw [htw] at h
    cases res with
    | error e => exact absurd h (by simp)
    | ok v2 =>
      simp only [Option.some.injEq] at h
      rw [← h]
      exact (tryWithCapacity_ok_inv tySize tyAlign cap f v2 calls htw).2
  · intro v newCap g vNew calls h
    rcases tryResize_cases tySize tyAlign v newCap g (.ok ()) vNew calls h with
      ⟨⟨e, he⟩, _⟩ | ⟨_, hc, _⟩
    · exact absurd he (by simp)
    · exact hc

/-- C8 witness: `try_with_capacity(20)` at element size 4 with a successful
allocation at address 64 yields capacity 20. -/
theorem cap_is_the_one_passed_witness :
    tryWithCapacity 4 4 20 (fun _ => 64) =
      (.ok ⟨64, 20⟩, [SysCall.alloc ⟨80, 4⟩]) ∧
    (⟨64, 20⟩ : RawVec).cap' = 20 :=
  ⟨rfl,
   (cap_is_the_one_passed 4 4).2.1 20 (fun _ => 64) ⟨64, 20⟩
     [SysCall.alloc ⟨80, 4⟩] rfl⟩

/-- C10: `UninitAlloc::init` returns an owned slot over the same raw
pointer (the block is reused), stores the value there, and performs no
allocation and no deallocation: the event trace is unchanged. -/
theorem init_reuses_block_no_alloc_no_dealloc {α : Type} (u : UninitAlloc)
    (v : α) (s : HState α) :
    (UninitAlloc.init u v s).1.ptr = u.ptr ∧
    (UninitAlloc.init u v s).2.events = s.events ∧
    (UninitAlloc.init u v s).2.store u.ptr = some v :=
  ⟨rfl, rfl, by simp [UninitAlloc.init]⟩

/-- C3: if `try_resize` returns an error (the `Layout` variant on overflow
or the `Alloc` variant on a failed reallocation), the buffer's pointer and
capacity are exactly as they were before the call, and the error is the
returned value. -/
theorem try_resize_failure_leaves_buffer_unchanged (tySize tyAlign : Nat)
    (v : RawVec) (newCap : Nat) (sysRealloc : Nat → Layout → Nat → Nat)
    (e : RawVecError) (vNew : RawVec) (calls : List SysCall)
    (h : tryResize tySize tyAlign v newCap sysRealloc =
      some (.error e, vNew, calls)) :
    vNew = v := by
  rcases tryResize_cases tySize tyAlign v newCap sysRealloc (.error e) vNew
      calls h with ⟨_, hv⟩ | ⟨hok, _, _⟩
  · exact hv
  · exact absurd hok (by simp)

/-- C3 witness: resizing a capacity-0 buffer of element size 1 to `2^64`
slots overflows the layout computation; the error is returned and the
buffer value is unchanged. -/
theorem try_resize_failure_leaves_buffer_unchanged_witness :
    tryResize 1 1 ⟨1, 0⟩ (2 ^ 64) (fun _ _ _ => 0) =
      some (.error (.layout .mk), ⟨1, 0⟩, []) ∧
    (⟨1, 0⟩ : RawVec) = ⟨1, 0⟩ := by
  have h : tryResize 1 1 ⟨1, 0⟩ (2 ^ 64) (fun _ _ _ => 0) =
      some (.error (.layout .mk), ⟨1, 0⟩, []) := rfl
  exact ⟨h, try_resize_failure_leaves_buffer_unchanged 1 1 ⟨1, 0⟩ (2 ^ 64)
    (fun _ _ _ => 0) (.layout .mk) ⟨1, 0⟩ [] h⟩

/-- C5: a successful resize whose old and new byte sizes are both non-zero
performs exactly one reallocation call, and a reallocation (modelled by the
crate's own `GlobalAlloc::realloc` implementation in src/lib.rs) preserves
the bytes of the block up to `min(old byte length, new byte length)`. -/
theorem resize_single_realloc_preserves_initial_bytes :
    (∀ (tySize tyAlign : Nat) (v : RawVec) (newCap : Nat)
      (sysRealloc : Nat → Layout → Nat → Nat) (old newL : Layout),
      makeLayout tySize tyAlign v.cap = .ok old → old.size ≠ 0 →
      makeLayout tySize tyAlign newCap = .ok newL → newL.size ≠ 0 →
      sysRealloc v.ptr old newL.size ≠ 0 →
      tryResize tySize tyAlign v newCap sysRealloc =
        some (.ok (), ⟨sysRealloc v.ptr old newL.size, newCap⟩,
          [SysCall.realloc v.ptr old newL.size])) ∧
    (∀ (p sysPtr : Nat) (layout : Layout) (newSize : Nat) (m : Mem),
      sysPtr ≠ 0 → p + layout.size ≤ sysPtr →
      ∀ i, i < min layout.size newSize →
        (Allocator.realloc p layout newSize sysPtr m).2.1
          ((Allocator.realloc p layout newSize sysPtr m).1 + i) = m (p + i)) := by
  constructor
  · intro tySize tyAlign v newCap g old newL hOld hOldSz hNew hNewSz hp
    simp [tryResize, hNew, hOld, hNewSz, hp]
  · intro p sysPtr layout newSize m hs hd i hi
    rcases hA : Allocator.alloc ⟨newSize, layout.align⟩ sysPtr m with ⟨np, m1c⟩
    rcases m1c with ⟨m1, c1⟩
    have hge := alloc_fst_ge ⟨newSize, layout.align⟩ sysPtr m hs
    rw [hA] at hge
    have hbelow : ∀ j, j < sysPtr → m1 j = m j := by
      intro j hj
      have hb := alloc_mem_below ⟨newSize, layout.align⟩ sysPtr m j hj
      rw [hA] at hb
      exact hb
    have key : Allocator.realloc p layout newSize sysPtr m =
        (np,
         writeBytes (copyNonoverlapping m1 p np (min layout.size newSize))
           p 0 layout.size,
         c1 ++ [SysCall.dealloc p layout]) := by
      unfold Allocator.realloc
      rw [hA]
      simp only [if_neg hge.2, Allocator.dealloc]
    rw [key]
    have hil : i < layout.size := Nat.lt_of_lt_of_le hi (Nat.min_le_left _ _)
    have hnp : p + layout.size ≤ np := Nat.le_trans hd hge.1
    show writeBytes (copyNonoverlapping m1 p np (min layout.size newSize))
      p 0 layout.size (np + i) = m (p + i)
    rw [writeBytes_out _ _ _ _ _ (Or.inr (by omega))]
    rw [copyNonoverlapping_in_range m1 p np (min layout.size newSize) i hi]
    exact hbelow (p + i) (by omega)

/-- C5 witness: a capacity-2 buffer of element size 1 resized to 3 with a
successful reallocation at address 200 issues exactly one `realloc` call,
and the modelled reallocation of a 2-byte block at address 10 into a 3-byte
block allocated at address 100 preserves both old bytes (checked at index
1 of memory `fun j => j + 1`). -/
theorem resize_single_realloc_preserves_initial_bytes_witness :
    tryResize 1 1 ⟨100, 2⟩ 3 (fun _ _ _ => 200) =
      some (.ok (), ⟨200, 3⟩, [SysCall.realloc 100 ⟨2, 1⟩ 3]) ∧
    (Allocator.realloc 10 ⟨2, 1⟩ 3 100 (fun j => j + 1)).2.1
      ((Allocator.realloc 10 ⟨2, 1⟩ 3 100 (fun j => j + 1)).1 + 1) = 12 :=
  ⟨resize_single_realloc_preserves_initial_bytes.1 1 1 ⟨100, 2⟩ 3 (fun _ _ _ => 200)
     ⟨2, 1⟩ ⟨3, 1⟩ rfl (by decide) rfl (by decide) (by decide),
   resize_single_realloc_preserves_initial_bytes.2 10 100 ⟨2, 1⟩ 3 (fun j => j + 1)
     (by decide) (by decide) 1 (by decide)⟩

/-- C7: every byte of a block returned by the zeroizing allocator's
`alloc` is zero, including after the alignment adjustment of the returned
address, and `dealloc` zero-overwrites the entire region before invoking
the underlying free call (the memory paired with the emitted underlying
`dealloc` call is zero over the whole region). -/
theorem zeroizing_allocator_acquire_release_zero :
    (∀ (layout : Layout) (sysPtr : Nat) (m : Mem),
      layout.size ≠ 0 → sysPtr ≠ 0 →
      ∀ i, i < layout.size →
        (Allocator.alloc layout sysPtr m).2.1
          ((Allocator.alloc layout sysPtr m).1 + i) = 0) ∧
    (∀ (p : Nat) (layout : Layout) (m : Mem), layout.size ≠ 0 →
      (∀ i, i < layout.size → (Allocator.dealloc p layout m).1 (p + i) = 0) ∧
      (Allocator.dealloc p layout m).2 = [SysCall.dealloc p layout]) := by
  constructor
  · intro layout sysPtr m _ hs i hi
    unfold Allocator.alloc
    rw [if_neg hs]
    by_cases hoff : alignOffset sysPtr layout.align = 0
    · rw [if_pos hoff]
      exact writeBytes_in_range m sysPtr 0 layout.size i hi
    · rw [if_neg hoff]
      exact writeBytes_in_range _ _ 0 layout.size i hi
  · intro p layout m _
    exact ⟨fun i hi => writeBytes_in_range m p 0 layout.size i hi, rfl⟩

/-- C7 witness: allocating a 4-byte block when the underlying call returns
the misaligned address 3 (alignment 2, so the returned address is adjusted)
yields a zero byte at offset 2, and deallocating a 4-byte block at address
5 zeroes the byte at offset 3 before the underlying free call. -/
theorem zeroizing_allocator_acquire_release_zero_witness :
    (Allocator.alloc ⟨4, 2⟩ 3 (fun _ => 7)).2.1
      ((Allocator.alloc ⟨4, 2⟩ 3 (fun _ => 7)).1 + 2) = 0 ∧
    (Allocator.dealloc 5 ⟨4, 2⟩ (fun _ => 9)).1 (5 + 3) = 0 :=
  ⟨zeroizing_allocator_acquire_release_zero.1 ⟨4, 2⟩ 3 (fun _ => 7)
     (by decide) (by decide) 2 (by decide),
   (zeroizing_allocator_acquire_release_zero.2 5 ⟨4, 2⟩ (fun _ => 9)
     (by decide)).1 3 (by decide)⟩

/-- C6: `OwnedAlloc::new(v).move_inner()` yields the pair `(v, u)` where
`u` is an uninitialized slot over the same block; `u.init(w)` yields an
owned slot that dereferences to `w`; across the whole sequence at most one
allocation call and no deallocation call happen (the decomposed owned
slot's destructor and deallocation are suppressed by `mem::forget`). -/
theorem move_inner_roundtrip {α : Type} (v w : α) (tySize tyAlign sysPtr : Nat)
    (s0 : HState α) (o : OwnedAlloc) (s1 : HState α)
    (h : OwnedAlloc.tryNew tySize tyAlign sysPtr v s0 = .ok (o, s1)) :
    (OwnedAlloc.moveInner o s1).1 = some v ∧
    (OwnedAlloc.moveInner o s1).2.1.ptr = o.ptr ∧
    OwnedAlloc.deref
      (UninitAlloc.init (OwnedAlloc.moveInner o s1).2.1 w
        (OwnedAlloc.moveInner o s1).2.2).1
      (UninitAlloc.init (OwnedAlloc.moveInner o s1).2.1 w
        (OwnedAlloc.moveInner o s1).2.2).2 = some w ∧
    s1.events = s0.events ++ (if tySize = 0 then [] else [HEvent.allocCall]) := by
  unfold OwnedAlloc.tryNew UninitAlloc.tryNew at h
  by_cases h0 : tySize = 0
  · rw [if_pos h0] at h
    simp only [Except.ok.injEq, UninitAlloc.init, Prod.mk.injEq] at h
    obtain ⟨ho, hs⟩ := h
    subst ho hs
    simp [OwnedAlloc.moveInner, OwnedAlloc.deref, UninitAlloc.init, h0]
  · rw [if_neg h0] at h
    by_cases hsp : sysPtr = 0
    · rw [if_pos hsp] at h
      simp at h
    · rw [if_neg hsp] at h
      simp only [Except.ok.injEq, UninitAlloc.init, Prod.mk.injEq] at h
      obtain ⟨ho, hs⟩ := h
      subst ho hs
      simp [OwnedAlloc.moveInner, OwnedAlloc.deref, UninitAlloc.init, h0]

/-- C6 witness: the sequence at `T = Nat`, value 7, re-initialization 99,
type size 8, with a successful allocation at address 16: `move_inner`
returns the stored 7. -/
theorem move_inner_roundtrip_witness :
    OwnedAlloc.tryNew 8 8 16 (7 : Nat) ⟨fun _ => none, []⟩ =
      .ok (⟨16⟩, ⟨fun i => if i = 16 then some 7 else none,
        [HEvent.allocCall]⟩) ∧
    (OwnedAlloc.moveInner (⟨16⟩ : OwnedAlloc)
      (⟨fun i => if i = 16 then some (7 : Nat) else none,
        [HEvent.allocCall]⟩ : HState Nat)).1 = some 7 := by
  have h : OwnedAlloc.tryNew 8 8 16 (7 : Nat) ⟨fun _ => none, []⟩ =
      .ok (⟨16⟩, ⟨fun i => if i = 16 then some 7 else none,
        [HEvent.allocCall]⟩) := rfl
  exact ⟨h, (move_inner_roundtrip 7 99 8 8 16 ⟨fun _ => none, []⟩ ⟨16⟩
    ⟨fun i => if i = 16 then some 7 else none, [HEvent.allocCall]⟩ h).1⟩

/-- The `RawVec` values reachable through the safe operations: `new`, a
successful `with_capacity`/`try_with_capacity`, `resize`/`try_resize`
(either outcome), and the conversion `From<UninitAlloc<T>>` which sets
capacity 1 (src/raw_vec.rs lines 253-262). -/
inductive Reachable (tySize tyAlign : Nat) : RawVec → Prop where
  | new : Reachable tySize tyAlign (RawVec.new tyAlign)
  | withCap (cap : Nat) (f : Layout → Nat) (v : RawVec) (calls : List SysCall) :
      tryWithCapacity tySize tyAlign cap f = (.ok v, calls) →
      Reachable tySize tyAlign v
  | resize (v : RawVec) (newCap : Nat) (g : Nat → Layout → Nat → Nat)
      (res : Except RawVecError Unit) (vNew : RawVec) (calls : List SysCall) :
      Reachable tySize tyAlign v →
      tryResize tySize tyAlign v newCap g = some (res, vNew, calls) →
      Reachable tySize tyAlign vNew
  | fromUninit (p : Nat) : Reachable tySize tyAlign ⟨p, 1⟩

lemma reachable_cap_layout_ok (tySize tyAlign : Nat)
    (hTy : Layout.from_size_align tySize tyAlign = some ⟨tySize, tyAlign⟩)
    (v : RawVec) (hv : Reachable tySize tyAlign v) :
    ∃ l, makeLayout tySize tyAlign v.cap = .ok l := by
  obtain ⟨hp, hb⟩ := from_size_align_inv tySize tyAlign _ hTy
  induction hv with
  | new =>
    exact ⟨⟨tySize * 0, tyAlign⟩, makeLayout_ok tySize tyAlign 0 hp (by simp)⟩
  | withCap cap f v2 calls heq =>
    obtain ⟨hex, hcap⟩ := tryWithCapacity_ok_inv tySize tyAlign cap f v2 calls heq
    rw [hcap]
    exact hex
  | resize v2 newCap g res vNew calls _ heq ih =>
    rcases tryResize_cases tySize tyAlign v2 newCap g res vNew calls heq with
      ⟨_, hveq⟩ | ⟨_, hcap, hex⟩
    · rw [hveq]
      exact ih
    · rw [hcap]
      exact hex
  | fromUninit p =>
    refine ⟨⟨tySize * 1, tyAlign⟩, makeLayout_ok tySize tyAlign 1 hp ?_⟩
    simpa using hb

lemma free_isSome_of_layout_ok (tySize tyAlign : Nat) (v : RawVec)
    (h : ∃ l, makeLayout tySize tyAlign v.cap = .ok l) :
    (RawVec.free tySize tyAlign v).isSome = true := by
  obtain ⟨l, hl⟩ := h
  unfold RawVec.free
  split
  · simp only [hl, Option.isSome_some]
  · rfl

lemma tryResize_isSome_of_layout_ok (tySize tyAlign : Nat) (v : RawVec)
    (h : ∃ l, makeLayout tySize tyAlign v.cap = .ok l)
    (newCap : Nat) (g : Nat → Layout → Nat → Nat) :
    (tryResize tySize tyAlign v newCap g).isSome = true := by
  obtain ⟨l, hl⟩ := h
  unfold tryResize
  split
  · rfl
  · split
    · have hf := free_isSome_of_layout_ok tySize tyAlign v ⟨l, hl⟩
      rcases hfree : RawVec.free tySize tyAlign v with _ | calls
      · rw [hfree] at hf
        exact absurd hf (by simp)
      · simp only [hfree, Option.isSome_some]
    · simp only [hl]
      split <;> rfl

/-- C9: for every `RawVec` reachable through the safe operations, the
stored capacity admits a valid layout, so the internal
`make_layout(self.cap).unwrap()` inside `try_resize` and `free` never
panics (neither function returns the `none` modelling a panic).  The
hypothesis `hTy` states that the element type itself has a valid Rust
layout, which holds for every Rust type. -/
theorem raw_vec_internal_unwrap_never_panics (tySize tyAlign : Nat)
    (hTy : Layout.from_size_align tySize tyAlign = some ⟨tySize, tyAlign⟩)
    (v : RawVec) (hv : Reachable tySize tyAlign v) :
    (∃ l, makeLayout tySize tyAlign v.cap = .ok l) ∧
    (RawVec.free tySize tyAlign v).isSome = true ∧
    (∀ newCap g, (tryResize tySize tyAlign v newCap g).isSome = true) := by
  have hex := reachable_cap_layout_ok tySize tyAlign hTy v hv
  exact ⟨hex, free_isSome_of_layout_ok tySize tyAlign v hex,
    fun newCap g => tryResize_isSome_of_layout_ok tySize tyAlign v hex newCap g⟩

/-- C9 witness: at element layout (size 4, align 4) and the freshly created
`RawVec::new()`, `free` does not panic. -/
theorem raw_vec_internal_unwrap_never_panics_witness :
    Layout.from_size_align 4 4 = some ⟨4, 4⟩ ∧
    (RawVec.free 4 4 (RawVec.new 4)).isSome = true := by
  have hTy : Layout.from_size_align 4 4 = some ⟨4, 4⟩ := rfl
  exact ⟨hTy, (raw_vec_internal_unwrap_never_panics 4 4 hTy (RawVec.new 4)
    Reachable.new).2.1⟩

end OwnedAllocCrate
